import Mathlib

/-
Verification of the frame-extraction pipeline in
src/DataSynthesizing/make_frames_for_SAM2.py.

The script has three parts, each embedded below:
  * find_videos   : enumerate episode_*.mp4 files under
                    <root>/videos/chunk-*/observation.images.*/,
                    optionally filtered by a camera key suffix;
  * _extract_worker : for one mp4, create a sibling directory
                    <stem>_frames and run ffmpeg once to fill it with
                    5-digit zero-padded JPEG frames, skipping the work when
                    the directory already exists and is non-empty;
  * main          : materialize the video list, fail on empty discovery,
                    and pool.map the worker over the list, collecting the
                    output directories in input order.

The filesystem is modelled as an association list from directory paths to
their file entries; the external decoder (ffmpeg) is a parameter mapping the
command line it is invoked with to an outcome (a number of frames written on
success, or a number of frames written so far plus an exit code on failure).
-/

namespace MakeFrames

/-- A filesystem path, as its list of components (pathlib.Path parts). -/
abbrev Path := List String

/-- Rendering of a path as a string, as str(path) in Python does (modulo the
anchor, which never matters here: paths are only compared for equality). -/
def pathStr (p : Path) : String := String.intercalate "/" p

/-- Index of the last '.' in a list of characters, as str.rfind of Python. -/
def rfindDot (cs : List Char) : Option Nat :=
  match cs.reverse.findIdx? (fun c => c == '.') with
  | none => none
  | some j => some (cs.length - 1 - j)

/-- PurePath.stem of Python pathlib on a file name: the name with its last
suffix removed, where a suffix exists only if the last '.' is neither the
first character nor the last one. -/
def stem (nm : String) : String :=
  let cs := nm.data
  match rfindDot cs with
  | none => nm
  | some i => if 0 < i ∧ i < cs.length - 1 then String.mk (cs.take i) else nm

/-- Python str.startswith on plain strings. -/
def strStartsWith (s pat : String) : Bool := pat.data.isPrefixOf s.data

/-- Python str.endswith on plain strings. -/
def strEndsWith (s pat : String) : Bool := pat.data.isSuffixOf s.data

/-- A directory tree: name, subdirectories, plain files. -/
inductive Dir where
  | mk (name : String) (subdirs : List Dir) (files : List String)

def Dir.name : Dir → String
  | .mk n _ _ => n

def Dir.subdirs : Dir → List Dir
  | .mk _ s _ => s

def Dir.files : Dir → List String
  | .mk _ _ f => f

/-- Matching of the glob pattern episode_*.mp4 against a file name: the name
is "episode_" ++ anything ++ ".mp4" with the two fixed parts not
overlapping. -/
def isEpisodeFile (nm : String) : Bool :=
  strStartsWith nm "episode_" && strEndsWith nm ".mp4" && Nat.ble 12 nm.data.length

/-- The `if camera_key and not cam_dir.name.endswith(camera_key): continue`
test of find_videos: a camera directory is skipped exactly when the key is
truthy (present and non-empty) and the directory name does not end with it. -/
def skipCam (camera_key : Option String) (nm : String) : Bool :=
  match camera_key with
  | none => false
  | some k => !k.isEmpty && !(strEndsWith nm k)

/-- find_videos of make_frames_for_SAM2.py: every episode_*.mp4 inside
<root>/videos/chunk-*/observation.images.*/, with camera directories
filtered by skipCam.  Globbing a missing "videos" directory yields nothing,
as glob of pathlib does; a file named like a directory pattern would
contribute no episodes, so only subdirectories are walked. -/
def find_videos (dataset_root : Dir) (camera_key : Option String) : List Path :=
  match dataset_root.subdirs.find? (fun d => d.name == "videos") with
  | none => []
  | some videos =>
    (videos.subdirs.filter (fun d => strStartsWith d.name "chunk-")).flatMap fun chunk_dir =>
      (chunk_dir.subdirs.filter
          (fun d => strStartsWith d.name "observation.images.")).flatMap fun cam_dir =>
        if skipCam camera_key cam_dir.name then []
        else
          (cam_dir.files.filter isEpisodeFile).map fun f =>
            [dataset_root.name, "videos", chunk_dir.name, cam_dir.name, f]

/-- A filesystem state for extraction: an association list from directory
paths to the list of file entries in that directory. -/
abbrev FS := List (Path × List String)

/-- Lookup of the entries of a directory; none when the directory does not exist. -/
def lookupDir : FS → Path → Option (List String)
  | [], _ => none
  | (d, es) :: rest, p => if d = p then some es else lookupDir rest p

/-- Replacing (or creating) the entries of a directory. -/
def setDir : FS → Path → List String → FS
  | [], p, es => [(p, es)]
  | (d, old) :: rest, p, es => if d = p then (p, es) :: rest else (d, old) :: setDir rest p es

/-- out_dir.mkdir(exist_ok=True): create the directory empty when missing,
leave it untouched when present. -/
def mkdirP (fs : FS) (p : Path) : FS :=
  match lookupDir fs p with
  | some _ => fs
  | none => setDir fs p []

/-- The `out_dir.exists() and any(out_dir.iterdir())` check of
_extract_worker. -/
def dirNonEmpty (fs : FS) (p : Path) : Bool :=
  match lookupDir fs p with
  | some es => !es.isEmpty
  | none => false

/-- Outcome of one invocation of the external decoder process: on success
the number of frames it wrote, on failure (non-zero exit) the number of
frames written before dying plus the exit status. -/
inductive DecodeOutcome where
  | ok (numFrames : Nat)
  | fail (written : Nat) (exitCode : Int)

/-- The error subprocess.run(cmd, check=True) raises on a non-zero exit
status: it carries the command line (which contains the episode path) and
the return code of the process. -/
structure CalledProcessError where
  cmd : List String
  returncode : Int
deriving DecidableEq

/-- The %05d.jpg naming the decoder is instructed to use: a 5-digit
zero-padded frame index. -/
def frameName (i : Nat) : String :=
  let s := toString i
  (if s.length < 5 then String.mk (List.replicate (5 - s.length) '0') ++ s else s) ++ ".jpg"

/-- The file entries a decoder run leaves in out_dir after writing n frames
numbered from -start_number 0. -/
def frameNames (n : Nat) : List String := (List.range n).map frameName

/-- out_dir of _extract_worker: mp4_path.parent / (mp4_path.stem ++
"_frames"), a sibling directory named after the episode. -/
def outDirOf (mp4_path : Path) : Path :=
  mp4_path.dropLast ++ [stem (mp4_path.getLastD "") ++ "_frames"]

/-- The exact ffmpeg command line _extract_worker builds. -/
def ffmpegCmd (mp4_path : Path) (quality : Int) (out_dir : Path) : List String :=
  ["ffmpeg", "-hide_banner", "-loglevel", "error",
   "-i", pathStr mp4_path,
   "-q:v", toString quality,
   "-start_number", "0",
   pathStr (out_dir ++ ["%05d.jpg"])]

/-- The worker _extract_worker: return the FrameSet directory immediately when it
already exists and is non-empty; otherwise mkdir it, run the decoder once
on the ffmpeg command line, and either return the directory (success) or
raise CalledProcessError (failure), in both cases leaving whatever frames
the decoder wrote in place.  The result carries the final filesystem and
the list of decoder invocations performed. -/
def extract (decode : List String → DecodeOutcome) (fs : FS) (mp4_path : Path)
    (quality : Int) : Except CalledProcessError Path × FS × List (List String) :=
  let out_dir := outDirOf mp4_path
  if dirNonEmpty fs out_dir then (.ok out_dir, fs, [])
  else
    let fs1 := mkdirP fs out_dir
    let cmd := ffmpegCmd mp4_path quality out_dir
    match decode cmd with
    | .ok n => (.ok out_dir, setDir fs1 out_dir (frameNames n), [cmd])
    | .fail w code => (.error ⟨cmd, code⟩, setDir fs1 out_dir (frameNames w), [cmd])

/-- Errors surfaced by main: the RuntimeError raised on empty discovery, or
a decoder failure propagated out of a worker. -/
inductive RunError where
  | emptyInput
  | decodeFailure (err : CalledProcessError)
deriving DecidableEq

/-- Extraction of a list of episodes in order, threading the filesystem and
stopping at the first decoder failure, as a fail-on-first-error map does. -/
def extractAll (decode : List String → DecodeOutcome) (quality : Int) :
    FS → List Path → Except CalledProcessError (List Path × FS)
  | fs, [] => .ok ([], fs)
  | fs, e :: rest =>
    match extract decode fs e quality with
    | (.ok d, fs1, _) =>
      match extractAll decode quality fs1 rest with
      | .ok (ds, fs2) => .ok (d :: ds, fs2)
      | .error err => .error err
    | (.error err, _, _) => .error err

/-- The body of main after discovery: raise RuntimeError when the episode
list is empty, otherwise map the worker over the list and collect the
FrameSet directories; a worker failure aborts the batch with no result
list. -/
def runBatch (decode : List String → DecodeOutcome) (fs : FS) (episodes : List Path)
    (quality : Int) : Except RunError (List Path × FS) :=
  if episodes.isEmpty then .error .emptyInput
  else
    match extractAll decode quality fs episodes with
    | .ok r => .ok r
    | .error err => .error (.decodeFailure err)

/-- main: discover the episodes of the dataset tree, then run the batch. -/
def mainModel (decode : List String → DecodeOutcome) (fs : FS) (dataset_root : Dir)
    (camera_key : Option String) (quality : Int) : Except RunError (List Path × FS) :=
  runBatch decode fs (find_videos dataset_root camera_key) quality

/-- pool.map result aggregation: each worker task i (run against whatever
filesystem state fsAt i it observes, and completing in whatever order the
scheduler produces) stores its result into slot i of a result table of the
length of the input; the table is returned as the result list.  A slot is none
when its task did not complete successfully. -/
def poolSlots (decode : List String → DecodeOutcome) (quality : Int) (episodes : List Path)
    (fsAt : Nat → FS) (order : List Nat) : List (Option Path) :=
  order.foldl
    (fun slots i =>
      slots.set i
        (match (extract decode (fsAt i) (episodes.getD i []) quality).1 with
         | .ok d => some d
         | .error _ => none))
    (List.replicate episodes.length none)

example : stem "episode_0.mp4" = "episode_0" := by decide

example :
    find_videos
      (.mk "root"
        [.mk "videos"
          [.mk "chunk-000"
            [.mk "observation.images.phone" [] ["episode_0.mp4", "notes.txt"],
             .mk "observation.images.laptop" [] ["episode_1.mp4"]] []] []] [])
      (some "phone")
    = [["root", "videos", "chunk-000", "observation.images.phone", "episode_0.mp4"]] := by
  decide

example :
    extract (fun _ => .ok 2) [] ["a", "episode_0.mp4"] 2
      = (.ok ["a", "episode_0_frames"],
         [(["a", "episode_0_frames"], ["00000.jpg", "00001.jpg"])],
         [["ffmpeg", "-hide_banner", "-loglevel", "error", "-i", "a/episode_0.mp4",
           "-q:v", "2", "-start_number", "0", "a/episode_0_frames/%05d.jpg"]]) := by
  rfl

theorem lookupDir_setDir_self (fs : FS) (p : Path) (es : List String) :
    lookupDir (setDir fs p es) p = some es := by
  induction fs with
  | nil => simp [setDir, lookupDir]
  | cons hd tl ih =>
    obtain ⟨d, old⟩ := hd
    by_cases h : d = p
    · simp [setDir, h, lookupDir]
    · simp [setDir, h, lookupDir, ih]

theorem frameNames_length (n : Nat) : (frameNames n).length = n := by
  simp [frameNames]

theorem dirNonEmpty_setDir_self (fs : FS) (p : Path) (es : List String) :
    dirNonEmpty (setDir fs p es) p = !es.isEmpty := by
  simp [dirNonEmpty, lookupDir_setDir_self]

/-- The short-circuit branch of _extract_worker: a non-empty existing
FrameSet directory is returned as-is, with no decoder invocation and no
filesystem change. -/
theorem extract_cached (decode : List String → DecodeOutcome) (fs : FS) (e : Path)
    (q : Int) (h : dirNonEmpty fs (outDirOf e) = true) :
    extract decode fs e q = (.ok (outDirOf e), fs, []) := by
  unfold extract
  simp [h]

/-- The working branch of _extract_worker when the decoder succeeds. -/
theorem extract_fresh_ok (decode : List String → DecodeOutcome) (fs : FS) (e : Path)
    (q : Int) (n : Nat) (h : dirNonEmpty fs (outDirOf e) = false)
    (hd : decode (ffmpegCmd e q (outDirOf e)) = .ok n) :
    extract decode fs e q
      = (.ok (outDirOf e),
         setDir (mkdirP fs (outDirOf e)) (outDirOf e) (frameNames n),
         [ffmpegCmd e q (outDirOf e)]) := by
  unfold extract
  simp [h, hd]

/-- The working branch of _extract_worker when the decoder fails. -/
theorem extract_fresh_fail (decode : List String → DecodeOutcome) (fs : FS) (e : Path)
    (q : Int) (w : Nat) (code : Int) (h : dirNonEmpty fs (outDirOf e) = false)
    (hd : decode (ffmpegCmd e q (outDirOf e)) = .fail w code) :
    extract decode fs e q
      = (.error ⟨ffmpegCmd e q (outDirOf e), code⟩,
         setDir (mkdirP fs (outDirOf e)) (outDirOf e) (frameNames w),
         [ffmpegCmd e q (outDirOf e)]) := by
  unfold extract
  simp [h, hd]

/-- Whenever _extract_worker returns normally, the returned path is the
sibling FrameSet directory of the episode, whatever the filesystem state. -/
theorem extract_ok_path (decode : List String → DecodeOutcome) (fs : FS) (e : Path)
    (q : Int) (d : Path) (h : (extract decode fs e q).1 = .ok d) : d = outDirOf e := by
  by_cases hne : dirNonEmpty fs (outDirOf e)
  · rw [extract_cached decode fs e q hne] at h
    exact (Except.ok.inj h).symm
  · cases hd : decode (ffmpegCmd e q (outDirOf e)) with
    | ok n =>
      rw [extract_fresh_ok decode fs e q n (Bool.of_not_eq_true hne) hd] at h
      exact (Except.ok.inj h).symm
    | fail w code =>
      rw [extract_fresh_fail decode fs e q w code (Bool.of_not_eq_true hne) hd] at h
      exact absurd h (by simp)

/-- Whenever _extract_worker returns normally and a successful decode always
writes at least one frame, the FrameSet directory is non-empty
afterwards. -/
theorem extract_ok_nonEmptyAfter (decode : List String → DecodeOutcome) (fs : FS)
    (e : Path) (q : Int) (d : Path)
    (hpos : ∀ c k, decode c = .ok k → 0 < k)
    (h : (extract decode fs e q).1 = .ok d) :
    dirNonEmpty (extract decode fs e q).2.1 (outDirOf e) = true := by
  by_cases hne : dirNonEmpty fs (outDirOf e)
  · rw [extract_cached decode fs e q hne]
    exact hne
  · cases hd : decode (ffmpegCmd e q (outDirOf e)) with
    | ok n =>
      rw [extract_fresh_ok decode fs e q n (Bool.of_not_eq_true hne) hd]
      have hn : 0 < n := hpos _ _ hd
      simp [dirNonEmpty_setDir_self, List.isEmpty_iff, ← List.length_pos_iff_ne_nil,
        frameNames_length, hn]
    | fail w code =>
      rw [extract_fresh_fail decode fs e q w code (Bool.of_not_eq_true hne) hd] at h
      exact absurd h (by simp)

/-- C1: extraction is idempotent.  When the FrameSet directory of an episode
already exists and is non-empty, _extract_worker returns it immediately with
no decoder invocation and no filesystem change; consequently, when a call
returns a path normally (and a successful decode writes at least one frame,
as it does for a genuine episode video), a second call in sequence returns
the same path, leaves the filesystem — hence the FrameSet — identical, and
performs no decoder invocation. -/
theorem extract_idempotent (decode : List String → DecodeOutcome) (fs : FS) (e : Path)
    (q : Int) (d : Path)
    (hpos : ∀ c k, decode c = .ok k → 0 < k)
    (h1 : (extract decode fs e q).1 = .ok d) :
    (∀ fs0 : FS, dirNonEmpty fs0 (outDirOf e) = true →
        extract decode fs0 e q = (.ok (outDirOf e), fs0, [])) ∧
    extract decode (extract decode fs e q).2.1 e q
      = (.ok d, (extract decode fs e q).2.1, []) := by
  refine ⟨fun fs0 h0 => extract_cached decode fs0 e q h0, ?_⟩
  have hd := extract_ok_path decode fs e q d h1
  subst hd
  exact extract_cached decode _ e q (extract_ok_nonEmptyAfter decode fs e q _ hpos h1)

theorem extract_idempotent_witness :
    (∀ c k, (fun _ : List String => DecodeOutcome.ok 2) c = .ok k → 0 < k) ∧
    (extract (fun _ => .ok 2) [] ["a", "episode_0.mp4"] 2).1 = .ok ["a", "episode_0_frames"] ∧
    extract (fun _ => .ok 2) (extract (fun _ => .ok 2) [] ["a", "episode_0.mp4"] 2).2.1
        ["a", "episode_0.mp4"] 2
      = (.ok ["a", "episode_0_frames"],
         (extract (fun _ => .ok 2) [] ["a", "episode_0.mp4"] 2).2.1, []) :=
  ⟨fun _ k h => by injection h with h; omega, by rfl,
   (extract_idempotent (fun _ => .ok 2) [] ["a", "episode_0.mp4"] 2 ["a", "episode_0_frames"]
      (fun _ k h => by injection h with h; omega) (by rfl)).2⟩

/-- C2: on an absent-or-empty FrameSet directory and a successful decode,
_extract_worker returns the sibling directory named after the stem of the episode
plus "_frames", performs exactly one decoder invocation — whose command line
carries the given quality, the starting index 0, and the 5-digit zero-padded
output pattern — and leaves that directory holding the frames the decoder wrote,
named by the fixed-width scheme from index 0. -/
theorem extract_fresh_postcondition (decode : List String → DecodeOutcome) (fs : FS)
    (e : Path) (q : Int) (n : Nat)
    (hdir : dirNonEmpty fs (outDirOf e) = false)
    (hok : decode (ffmpegCmd e q (outDirOf e)) = .ok n) :
    (extract decode fs e q).1 = .ok (outDirOf e) ∧
    (extract decode fs e q).2.2 = [ffmpegCmd e q (outDirOf e)] ∧
    lookupDir (extract decode fs e q).2.1 (outDirOf e) = some (frameNames n) ∧
    outDirOf e = e.dropLast ++ [stem (e.getLastD "") ++ "_frames"] ∧
    ffmpegCmd e q (outDirOf e)
      = ["ffmpeg", "-hide_banner", "-loglevel", "error",
         "-i", pathStr e, "-q:v", toString q, "-start_number", "0",
         pathStr (outDirOf e ++ ["%05d.jpg"])] ∧
    frameNames n = (List.range n).map frameName := by
  rw [extract_fresh_ok decode fs e q n hdir hok]
  exact ⟨rfl, rfl, lookupDir_setDir_self _ _ _, rfl, rfl, rfl⟩

theorem extract_fresh_postcondition_witness :
    dirNonEmpty [] (outDirOf ["a", "episode_0.mp4"]) = false ∧
    (fun _ : List String => DecodeOutcome.ok 3) (ffmpegCmd ["a", "episode_0.mp4"] 2
        (outDirOf ["a", "episode_0.mp4"])) = .ok 3 ∧
    ((extract (fun _ => .ok 3) [] ["a", "episode_0.mp4"] 2).1
        = .ok (outDirOf ["a", "episode_0.mp4"]) ∧
     (extract (fun _ => .ok 3) [] ["a", "episode_0.mp4"] 2).2.2
        = [ffmpegCmd ["a", "episode_0.mp4"] 2 (outDirOf ["a", "episode_0.mp4"])] ∧
     lookupDir (extract (fun _ => .ok 3) [] ["a", "episode_0.mp4"] 2).2.1
        (outDirOf ["a", "episode_0.mp4"]) = some (frameNames 3) ∧
     outDirOf ["a", "episode_0.mp4"]
        = (["a", "episode_0.mp4"] : Path).dropLast
            ++ [stem ((["a", "episode_0.mp4"] : Path).getLastD "") ++ "_frames"] ∧
     ffmpegCmd ["a", "episode_0.mp4"] 2 (outDirOf ["a", "episode_0.mp4"])
        = ["ffmpeg", "-hide_banner", "-loglevel", "error",
           "-i", pathStr ["a", "episode_0.mp4"], "-q:v", toString (2 : Int),
           "-start_number", "0",
           pathStr (outDirOf ["a", "episode_0.mp4"] ++ ["%05d.jpg"])] ∧
     frameNames 3 = (List.range 3).map frameName) :=
  ⟨rfl, rfl,
   extract_fresh_postcondition (fun _ => .ok 3) [] ["a", "episode_0.mp4"] 2 3 rfl rfl⟩

/-- C5: when the FrameSet directory is absent or empty and the decoder exits
with a non-zero status, _extract_worker fails with the CalledProcessError of
subprocess.run(check=True), carrying the command line — which contains the
episode path — and the exit status; the partially created (possibly empty)
FrameSet directory is left in place with whatever frames were written. -/
theorem extract_decode_failure (decode : List String → DecodeOutcome) (fs : FS)
    (e : Path) (q : Int) (w : Nat) (code : Int)
    (hdir : dirNonEmpty fs (outDirOf e) = false)
    (hfail : decode (ffmpegCmd e q (outDirOf e)) = .fail w code)
    (_hcode : code ≠ 0) :
    (extract decode fs e q).1 = .error ⟨ffmpegCmd e q (outDirOf e), code⟩ ∧
    pathStr e ∈ ffmpegCmd e q (outDirOf e) ∧
    lookupDir (extract decode fs e q).2.1 (outDirOf e) = some (frameNames w) := by
  rw [extract_fresh_fail decode fs e q w code hdir hfail]
  refine ⟨rfl, ?_, lookupDir_setDir_self _ _ _⟩
  simp [ffmpegCmd]

theorem extract_decode_failure_witness :
    dirNonEmpty [] (outDirOf ["a", "episode_0.mp4"]) = false ∧
    (fun _ : List String => DecodeOutcome.fail 0 1) (ffmpegCmd ["a", "episode_0.mp4"] 2
        (outDirOf ["a", "episode_0.mp4"])) = .fail 0 1 ∧
    (1 : Int) ≠ 0 ∧
    ((extract (fun _ => .fail 0 1) [] ["a", "episode_0.mp4"] 2).1
        = .error ⟨ffmpegCmd ["a", "episode_0.mp4"] 2 (outDirOf ["a", "episode_0.mp4"]), 1⟩ ∧
     pathStr ["a", "episode_0.mp4"]
        ∈ ffmpegCmd ["a", "episode_0.mp4"] 2 (outDirOf ["a", "episode_0.mp4"]) ∧
     lookupDir (extract (fun _ => .fail 0 1) [] ["a", "episode_0.mp4"] 2).2.1
        (outDirOf ["a", "episode_0.mp4"]) = some (frameNames 0)) :=
  ⟨rfl, rfl, by decide,
   extract_decode_failure (fun _ => .fail 0 1) [] ["a", "episode_0.mp4"] 2 0 1 rfl rfl
     (by decide)⟩

/-- C10: the FrameSet path depends only on the episode path, never on the
quality — the returned path is always outDirOf e, a function with no quality
argument — so a normal call at quality q1 followed by a call at any quality
q2 returns the same directory, performs no decoder invocation the second
time, and leaves the q1 frames untouched. -/
theorem extract_quality_independent (decode : List String → DecodeOutcome) (fs : FS)
    (e : Path) (q1 q2 : Int) (d : Path)
    (hpos : ∀ c k, decode c = .ok k → 0 < k)
    (h1 : (extract decode fs e q1).1 = .ok d) :
    d = outDirOf e ∧
    extract decode (extract decode fs e q1).2.1 e q2
      = (.ok d, (extract decode fs e q1).2.1, []) := by
  have hd := extract_ok_path decode fs e q1 d h1
  subst hd
  exact ⟨rfl,
    extract_cached decode _ e q2 (extract_ok_nonEmptyAfter decode fs e q1 _ hpos h1)⟩

theorem extract_quality_independent_witness :
    (∀ c k, (fun _ : List String => DecodeOutcome.ok 2) c = .ok k → 0 < k) ∧
    (extract (fun _ => .ok 2) [] ["a", "episode_0.mp4"] 0).1 = .ok ["a", "episode_0_frames"] ∧
    ((["a", "episode_0_frames"] : Path) = outDirOf ["a", "episode_0.mp4"] ∧
     extract (fun _ => .ok 2) (extract (fun _ => .ok 2) [] ["a", "episode_0.mp4"] 0).2.1
         ["a", "episode_0.mp4"] 9
       = (.ok ["a", "episode_0_frames"],
          (extract (fun _ => .ok 2) [] ["a", "episode_0.mp4"] 0).2.1, [])) :=
  ⟨fun _ k h => by injection h with h; omega, by rfl,
   extract_quality_independent (fun _ => .ok 2) [] ["a", "episode_0.mp4"] 0 9
     ["a", "episode_0_frames"] (fun _ k h => by injection h with h; omega) (by rfl)⟩

theorem strEndsWith_empty (nm : String) : strEndsWith nm "" = true := by
  simp [strEndsWith, List.isSuffixOf]

/-- Filtering by a constant predicate keeps everything or nothing. -/
theorem filter_const {α : Type} (c : Bool) (l : List α) :
    l.filter (fun _ => c) = if c then l else [] := by
  cases c
  · simp [List.filter_false]
  · simp [List.filter_true]

/-- Unfolding of find_videos when the "videos" directory is missing. -/
theorem find_videos_none_helper (root : Dir) (camera_key : Option String)
    (h : root.subdirs.find? (fun d => d.name == "videos") = none) :
    find_videos root camera_key = [] := by
  unfold find_videos
  rw [h]

/-- Unfolding of find_videos when the "videos" directory is present. -/
theorem find_videos_some_helper (root : Dir) (camera_key : Option String) (videos : Dir)
    (h : root.subdirs.find? (fun d => d.name == "videos") = some videos) :
    find_videos root camera_key
      = (videos.subdirs.filter (fun d => strStartsWith d.name "chunk-")).flatMap
          (fun chunk_dir =>
            (chunk_dir.subdirs.filter
                (fun d => strStartsWith d.name "observation.images.")).flatMap
              (fun cam_dir =>
                if skipCam camera_key cam_dir.name then []
                else
                  (cam_dir.files.filter isEpisodeFile).map
                    (fun f => [root.name, "videos", chunk_dir.name, cam_dir.name, f]))) := by
  unfold find_videos
  rw [h]

/-- The camera-directory test of find_videos, compared with a plain suffix
filter: skipping on a truthy-and-mismatching key keeps the same episodes as
keeping exactly the matching camera names (an empty key matches every
name). -/
theorem skipCam_ite {α : Type} (key nm : String) (l : List α) :
    (if skipCam (some key) nm then [] else l)
      = if strEndsWith nm key then l else [] := by
  by_cases hk : key.isEmpty
  · rw [String.isEmpty_iff] at hk
    subst hk
    simp [skipCam, strEndsWith_empty]
  · cases hc : strEndsWith nm key <;>
      simp [skipCam, hk, hc]

/-- C3: camera-filter correctness.  With a filter string, find_videos yields
exactly the episode files of the CameraStream directories whose names end
with the filter (the filter equation over the unfiltered run, keyed on the
camera component of each yielded path); with no filter it yields the episode
files of every CameraStream, which is the base list of the right-hand side. -/
theorem find_videos_camera_filter (root : Dir) (key : String) :
    find_videos root (some key)
      = (find_videos root none).filter (fun p => strEndsWith (p.getD 3 "") key) := by
  cases hfind : root.subdirs.find? (fun d => d.name == "videos") with
  | none =>
    rw [find_videos_none_helper root (some key) hfind,
      find_videos_none_helper root none hfind]
    rfl
  | some videos =>
    rw [find_videos_some_helper root (some key) videos hfind,
      find_videos_some_helper root none videos hfind]
    rw [List.filter_flatMap]
    refine congrArg _ (funext fun chunk_dir => ?_)
    rw [List.filter_flatMap]
    refine congrArg _ (funext fun cam_dir => ?_)
    have hnone : skipCam none cam_dir.name = false := rfl
    rw [hnone]
    simp only [Bool.false_eq_true, if_false]
    rw [List.filter_map]
    have hcomp :
        ((fun p => strEndsWith (p.getD 3 "") key)
            ∘ fun f => [root.name, "videos", chunk_dir.name, cam_dir.name, f])
          = fun _ => strEndsWith cam_dir.name key := rfl
    rw [hcomp, filter_const, apply_ite
      (List.map fun f => [root.name, "videos", chunk_dir.name, cam_dir.name, f])]
    exact skipCam_ite key cam_dir.name _

/-- C9: an empty-string camera filter is truthy-false in Python, so it is
treated exactly like no filter: find_videos with "" yields every episode of
every CameraStream. -/
theorem find_videos_empty_filter (root : Dir) :
    find_videos root (some "") = find_videos root none := by
  have h1 : ∀ nm, skipCam (some "") nm = false := fun _ => rfl
  have h2 : ∀ nm, skipCam none nm = false := fun _ => rfl
  unfold find_videos
  cases hfind : root.subdirs.find? (fun d => d.name == "videos") with
  | none => rfl
  | some videos => simp only [h1, h2]

/-- C8: a dataset root with no "videos" subdirectory yields the empty
sequence — globbing a missing directory is not an error. -/
theorem find_videos_no_videos_dir (root : Dir) (camera_key : Option String)
    (h : root.subdirs.find? (fun d => d.name == "videos") = none) :
    find_videos root camera_key = [] := by
  unfold find_videos
  rw [h]

theorem find_videos_no_videos_dir_witness :
    (Dir.subdirs (.mk "root" [.mk "images" [] ["a.mp4"]] [])).find?
        (fun d => d.name == "videos") = none ∧
    find_videos (.mk "root" [.mk "images" [] ["a.mp4"]] []) (some "phone") = [] :=
  ⟨rfl, find_videos_no_videos_dir _ (some "phone") rfl⟩

/-- C7: the batch fails fast with the empty-input RuntimeError when invoked
with no episodes, and main surfaces that same fatal error (hence a non-zero
process exit) whenever discovery finds zero matching videos, extracting
nothing. -/
theorem run_empty_input (decode : List String → DecodeOutcome) (fs : FS) (quality : Int)
    (root : Dir) (camera_key : Option String) :
    runBatch decode fs [] quality = .error .emptyInput ∧
    (find_videos root camera_key = [] →
      mainModel decode fs root camera_key quality = .error .emptyInput) := by
  refine ⟨rfl, fun h => ?_⟩
  rw [mainModel, h]
  rfl

theorem run_empty_input_witness :
    find_videos (.mk "root" [] []) none = [] ∧
    runBatch (fun _ => .ok 1) [] [] 2 = .error .emptyInput ∧
    mainModel (fun _ => .ok 1) [] (.mk "root" [] []) none 2 = .error .emptyInput :=
  ⟨rfl, (run_empty_input (fun _ => .ok 1) [] 2 (.mk "root" [] []) none).1,
   (run_empty_input (fun _ => .ok 1) [] 2 (.mk "root" [] []) none).2 rfl⟩

/-- Threading lemma: a failure after a successful run of the earlier
episodes is the failure of the whole ordered extraction. -/
theorem extractAll_append_fail (decode : List String → DecodeOutcome) (quality : Int)
    (e : Path) (post : List Path) (fs1 : FS) (err : CalledProcessError)
    (he : (extract decode fs1 e quality).1 = .error err) :
    ∀ (pre : List Path) (fs : FS) (ds : List Path),
      extractAll decode quality fs pre = .ok (ds, fs1) →
      extractAll decode quality fs (pre ++ e :: post) = .error err := by
  intro pre
  induction pre with
  | nil =>
    intro fs ds hpre
    simp only [extractAll] at hpre
    obtain ⟨hds, hfs⟩ := Prod.mk.injEq .. ▸ Except.ok.inj hpre
    subst hfs
    simp only [List.nil_append, extractAll]
    rcases hx : extract decode fs e quality with ⟨r, fsx, calls⟩
    rw [hx] at he
    simp only at he
    rw [he]
  | cons p rest ih =>
    intro fs ds hpre
    simp only [extractAll] at hpre
    rcases hx : extract decode fs p quality with ⟨r, fsp, calls⟩
    rw [hx] at hpre
    cases r with
    | error err2 => simp at hpre
    | ok d =>
      simp only at hpre
      cases hy : extractAll decode quality fsp rest with
      | error err2 => rw [hy] at hpre; simp at hpre
      | ok pr =>
        obtain ⟨ds2, fs2⟩ := pr
        rw [hy] at hpre
        simp only at hpre
        obtain ⟨hds, hfs⟩ := Prod.mk.injEq .. ▸ Except.ok.inj hpre
        subst hfs
        rw [List.cons_append]
        simp only [extractAll]
        rw [hx]
        simp only
        rw [ih fsp ds2 hy]

/-- C6: fail-fast batch abort.  When the extractions before some episode all
succeed and the decoder invocation of that episode fails, the batch run surfaces
that first DecodeFailure to the caller — an error, not a result list, and no
partial-success report — whatever episodes follow. -/
theorem run_fail_fast (decode : List String → DecodeOutcome) (quality : Int) (fs : FS)
    (pre post : List Path) (e : Path) (ds : List Path) (fs1 : FS)
    (err : CalledProcessError)
    (hpre : extractAll decode quality fs pre = .ok (ds, fs1))
    (he : (extract decode fs1 e quality).1 = .error err) :
    runBatch decode fs (pre ++ e :: post) quality = .error (.decodeFailure err) := by
  have hall := extractAll_append_fail decode quality e post fs1 err he pre fs ds hpre
  rw [runBatch, hall]
  simp

theorem run_fail_fast_witness :
    extractAll (fun _ => .fail 0 1) 2 [] [] = .ok ([], ([] : FS)) ∧
    (extract (fun _ => .fail 0 1) [] ["b", "episode_1.mp4"] 2).1
      = .error ⟨ffmpegCmd ["b", "episode_1.mp4"] 2 (outDirOf ["b", "episode_1.mp4"]), 1⟩ ∧
    runBatch (fun _ => .fail 0 1) []
        ([] ++ ["b", "episode_1.mp4"] :: [["c", "episode_2.mp4"]]) 2
      = .error (.decodeFailure
          ⟨ffmpegCmd ["b", "episode_1.mp4"] 2 (outDirOf ["b", "episode_1.mp4"]), 1⟩) :=
  ⟨rfl, rfl,
   run_fail_fast (fun _ => .fail 0 1) 2 [] [] [["c", "episode_2.mp4"]]
     ["b", "episode_1.mp4"] [] [] _ rfl rfl⟩

/-- Result-table lemma: storing, for each task index in an arbitrary
completion order, a value depending only on that index, fills slot j with
its value as soon as j occurs in the order, regardless of where in the order it
occurs. -/
theorem foldl_set_getElem? {α : Type} (val : Nat → α) (order : List Nat) :
    ∀ (slots : List α) (j : Nat),
      (order.foldl (fun s i => s.set i (val i)) slots)[j]?
        = if j ∈ order ∧ j < slots.length then some (val j) else slots[j]? := by
  induction order with
  | nil => intro slots j; simp
  | cons i rest ih =>
    intro slots j
    rw [List.foldl_cons, ih]
    by_cases hij : i = j
    · subst hij
      by_cases hjl : i < slots.length
      · by_cases hjr : i ∈ rest <;>
          simp [hjr, hjl, List.length_set, List.getElem?_set_self hjl]
      · have hle : slots.length ≤ i := Nat.le_of_not_lt hjl
        by_cases hjr : i ∈ rest <;>
          simp [hjr, hjl, List.length_set, List.set_eq_of_length_le hle]
    · by_cases hjr : j ∈ rest <;>
        by_cases hjl : j < slots.length <;>
          simp [hjr, hjl, Ne.symm hij, List.length_set, List.getElem?_set_ne hij]

/-- C4: order preservation.  Whatever completion order the pool workers
finish in (any order covering every task index), and whatever filesystem
state each worker observes, as long as every extraction returns normally the
aggregated result list has, at every index i, the FrameSet path of the i-th
input episode — the results are in input order, independent of completion
order. -/
theorem run_order_preserving (decode : List String → DecodeOutcome) (quality : Int)
    (episodes : List Path) (fsAt : Nat → FS) (order : List Nat)
    (horder : ∀ j, j < episodes.length → j ∈ order)
    (hsucc : ∀ i, i < episodes.length →
        ∃ d, (extract decode (fsAt i) (episodes.getD i []) quality).1 = .ok d) :
    poolSlots decode quality episodes fsAt order
      = episodes.map (fun e => some (outDirOf e)) := by
  apply List.ext_getElem?
  intro j
  rw [poolSlots, foldl_set_getElem?]
  by_cases hj : j < episodes.length
  · obtain ⟨d, hd⟩ := hsucc j hj
    have hpath := extract_ok_path _ _ _ _ _ hd
    subst hpath
    rw [hd]
    simp [horder j hj, hj, List.getElem?_eq_getElem hj, List.getD,
      List.getElem?_eq_getElem hj]
  · have hge : episodes.length ≤ j := Nat.le_of_not_lt hj
    simp [hj, List.getElem?_eq_none, hge]

theorem run_order_preserving_witness :
    (∀ j, j < ([["a", "episode_0.mp4"], ["a", "episode_1.mp4"]] : List Path).length →
        j ∈ [1, 0]) ∧
    (∀ i, i < ([["a", "episode_0.mp4"], ["a", "episode_1.mp4"]] : List Path).length →
        ∃ d, (extract (fun _ => .ok 1) ((fun _ => []) i)
            (([["a", "episode_0.mp4"], ["a", "episode_1.mp4"]] : List Path).getD i [])
            2).1 = .ok d) ∧
    poolSlots (fun _ => .ok 1) 2 [["a", "episode_0.mp4"], ["a", "episode_1.mp4"]]
        (fun _ => []) [1, 0]
      = [some ["a", "episode_0_frames"], some ["a", "episode_1_frames"]] := by
  refine ⟨?_, ?_, ?_⟩
  · intro j hj
    simp only [List.length_cons, List.length_nil] at hj
    interval_cases j <;> decide
  · intro i hi
    simp only [List.length_cons, List.length_nil] at hi
    interval_cases i
    · exact ⟨["a", "episode_0_frames"], by rfl⟩
    · exact ⟨["a", "episode_1_frames"], by rfl⟩
  · have h := run_order_preserving (fun _ => .ok 1) 2
      [["a", "episode_0.mp4"], ["a", "episode_1.mp4"]] (fun _ => []) [1, 0]
      (by
        intro j hj
        simp only [List.length_cons, List.length_nil] at hj
        interval_cases j <;> decide)
      (by
        intro i hi
        simp only [List.length_cons, List.length_nil] at hi
        interval_cases i
        · exact ⟨["a", "episode_0_frames"], by rfl⟩
        · exact ⟨["a", "episode_1_frames"], by rfl⟩)
    rw [h]
    rfl

end MakeFrames
